import Mathlib

/-!
Verification of the task-traders bid-lifecycle and unread-message logic.

The definitions below are a shallow embedding of the client operations in
`MyJobsPage` (`acceptBid`, `rejectBid`, `updateJobStatus`), the bid
submission handler in `SubmitBidPage` (`handleSubmit`), the SQL trigger
`calculate_bid_total`, the SQL helper `user_is_not_job_poster` together
with the row-level insert policy on `bids`, and the hooks
`useUnreadMessages` (`fetchUnreadCount`), `useChat` (`markMessagesAsRead`)
and `useJobs`.

Remote tables are lists of rows; each multi-row `update` is the
corresponding map over the list; network failure of an individual request
is an explicit boolean oracle; user-facing toasts are collected in a list.
-/

namespace TaskTraders

/-- A row of the `jobs` table (fields used by the verified operations:
`id`, owner `user_id`, `status`, `created_at`). -/
structure Job where
  id : String
  user_id : String
  status : String
  created_at : Nat
  deriving DecidableEq, Repr

/-- A row of the `bids` table. `handleSubmit` stores the bidder's account id
in both `professional_id` and `user_id`; `amount`, `hourly_rate` are integer
cents, `estimated_hours` an integer. -/
structure Bid where
  id : String
  job_id : String
  professional_id : String
  user_id : String
  amount : Int
  hourly_rate : Option Int
  estimated_hours : Option Int
  status : String
  deriving DecidableEq, Repr

/-- The remote store as seen by the bid lifecycle operations. -/
structure St where
  jobs : List Job
  bids : List Bid
  deriving DecidableEq, Repr

/-- A user-facing toast notification (`useToast`): success or destructive. -/
inductive Toast where
  | ok (title : String)
  | err (title : String)
  deriving DecidableEq, Repr

/-- Effect of `supabase.from('bids').update({status}).eq('id', bidId)` on one
row, issued under the authenticated uid `authUid`. The row-level UPDATE
policy on `bids` ("Users can update their own bids",
`USING (auth.uid() = user_id)`, migration 20250812121232) silently skips
every row whose `user_id` is not the caller: the request succeeds with no
error and the row is unchanged. -/
def setBidStatusRow (authUid bidId newStatus : String) (b : Bid) : Bid :=
  if b.id = bidId ∧ authUid = b.user_id then { b with status := newStatus } else b

/-- `supabase.from('bids').update({status: newStatus}).eq('id', bidId)`
under the bids UPDATE policy, issued by `authUid`. -/
def updateBidStatus (bids : List Bid) (authUid bidId newStatus : String) : List Bid :=
  bids.map (setBidStatusRow authUid bidId newStatus)

/-- Effect of `update({status:'rejected'}).eq('job_id', jobId).neq('id', bidId)`
on one row, issued by `authUid`; the same bids UPDATE policy
(`USING (auth.uid() = user_id)`) skips rows the caller does not own. -/
def rejectSiblingRow (authUid jobId bidId : String) (b : Bid) : Bid :=
  if b.job_id = jobId ∧ b.id ≠ bidId ∧ authUid = b.user_id then
    { b with status := "rejected" }
  else b

/-- `supabase.from('bids').update({status:'rejected'}).eq('job_id', jobId).neq('id', bidId)`:
step (b) of `acceptBid`, under the bids UPDATE policy. -/
def rejectOtherBids (bids : List Bid) (authUid jobId bidId : String) : List Bid :=
  bids.map (rejectSiblingRow authUid jobId bidId)

/-- Effect of `supabase.from('jobs').update({status}).eq('id', jobId)` on one row. -/
def setJobStatusRow (jobId newStatus : String) (j : Job) : Job :=
  if j.id = jobId then { j with status := newStatus } else j

/-- The jobs-table update issued by `updateJobStatus`. -/
def updateJobStatusRows (jobs : List Job) (jobId newStatus : String) : List Job :=
  jobs.map (setJobStatusRow jobId newStatus)

/-- `updateJobStatus` in `MyJobsPage`: updates the job row; on request
failure it catches the error itself and shows a destructive toast (it does
not rethrow). `ok` is the network-success oracle for the request. -/
def updateJobStatusOp (st : St) (jobId newStatus : String) (ok : Bool) : St × List Toast :=
  if ok then
    ({ st with jobs := updateJobStatusRows st.jobs jobId newStatus },
      [Toast.ok "Job status updated"])
  else (st, [Toast.err "Failed to update job status"])

/-- `acceptBid` in `MyJobsPage`, issued by the signed-in user `authUid`
(always the job's poster at the call site): (a) set the target bid
accepted; (b) reject every other bid of the job; (c) set the job
in-progress via `updateJobStatus`. The three requests are issued in this
order; a failure of (a) or (b) throws into the catch block (no rollback of
completed steps); (c) swallows its own failure. `oka`, `okb`, `okc` are
the per-request network-success oracles; a request whose filter matches no
rows under the bids UPDATE policy still succeeds with no error. -/
def acceptBidOp (st : St) (authUid bidId jobId : String) (oka okb okc : Bool) :
    St × List Toast :=
  if oka = false then (st, [Toast.err "Failed to accept bid"])
  else
    let st1 : St := { st with bids := updateBidStatus st.bids authUid bidId "accepted" }
    if okb = false then (st1, [Toast.err "Failed to accept bid"])
    else
      let st2 : St := { st1 with bids := rejectOtherBids st1.bids authUid jobId bidId }
      let r := updateJobStatusOp st2 jobId "in-progress" okc
      (r.1, r.2 ++ [Toast.ok "Bid accepted successfully!"])

/-- State after step (a) of `acceptBid` alone. -/
def stepA (st : St) (authUid bidId : String) : St :=
  { st with bids := updateBidStatus st.bids authUid bidId "accepted" }

/-- State after steps (a) and (b) of `acceptBid`. -/
def stepAB (st : St) (authUid bidId jobId : String) : St :=
  { st with bids :=
      rejectOtherBids (updateBidStatus st.bids authUid bidId "accepted") authUid jobId bidId }

/-- State after all three steps of `acceptBid` complete successfully. -/
def acceptBidState (st : St) (authUid bidId jobId : String) : St :=
  (acceptBidOp st authUid bidId jobId true true true).1

/-- `rejectBid` in `MyJobsPage`, issued by the signed-in user `authUid`
(the job's poster at the call site): set that bid's status to rejected
(subject to the bids UPDATE policy); no effect on siblings or on the job
row; success toast on completion. -/
def rejectBidOp (st : St) (authUid bidId : String) : St × List Toast :=
  ({ st with bids := updateBidStatus st.bids authUid bidId "rejected" },
    [Toast.ok "Bid rejected"])

/-- The SQL helper `public.user_is_not_job_poster(bid_user_id, job_id)`:
`NOT EXISTS (SELECT 1 FROM jobs WHERE id = job_id AND user_id = bid_user_id)`. -/
def user_is_not_job_poster (jobs : List Job) (bid_user_id job_id : String) : Bool :=
  !(jobs.any fun j => j.id == job_id && j.user_id == bid_user_id)

/-- The `WITH CHECK` clause of the bids insert policy
"Users can create bids on jobs they don't own":
`auth.uid() = user_id AND user_is_not_job_poster(auth.uid(), job_id)`. -/
def bidInsertPolicy (jobs : List Job) (authUid : String) (row : Bid) : Bool :=
  (authUid == row.user_id) && user_is_not_job_poster jobs authUid row.job_id

/-- The `BEFORE INSERT OR UPDATE` trigger `calculate_bid_total`: when both
`hourly_rate` and `estimated_hours` are non-null, overwrite `amount` with
their product. -/
def calculate_bid_total (row : Bid) : Bid :=
  match row.hourly_rate, row.estimated_hours with
  | some r, some h => { row with amount := r * h }
  | _, _ => row

/-- The client-chosen part of a bid insertion (`handleSubmit` form data);
`id` stands for the uuid the store generates for the new row. -/
structure BidInput where
  id : String
  job_id : String
  amount : Int
  hourly_rate : Option Int
  estimated_hours : Option Int
  deriving DecidableEq, Repr

/-- The row `handleSubmit` sends to `supabase.from('bids').insert`:
`professional_id` and `user_id` are both the authenticated user's id and
the status is always `'pending'`. -/
def clientBidRow (uid : String) (input : BidInput) : Bid :=
  { id := input.id, job_id := input.job_id, professional_id := uid, user_id := uid,
    amount := input.amount, hourly_rate := input.hourly_rate,
    estimated_hours := input.estimated_hours, status := "pending" }

/-- The table constraints checked by the insert: primary-key freshness of
the generated `id` and `UNIQUE(job_id, professional_id)`. -/
def bidConstraintsOk (bids : List Bid) (row : Bid) : Bool :=
  !(bids.any fun b => b.id == row.id) &&
  !(bids.any fun b => b.job_id == row.job_id && b.professional_id == row.professional_id)

/-- `handleSubmit` in `SubmitBidPage`: unauthenticated callers are turned
away before any insert; otherwise the row is inserted when the store's
insert policy and constraints admit it (the trigger recomputing `amount`),
and any store rejection surfaces as a destructive toast. -/
def submitBid (st : St) (auth : Option String) (input : BidInput) : St × List Toast :=
  match auth with
  | none => (st, [Toast.err "Authentication Required"])
  | some uid =>
    if bidInsertPolicy st.jobs uid (clientBidRow uid input) &&
        bidConstraintsOk st.bids (clientBidRow uid input) then
      ({ st with bids := st.bids ++ [calculate_bid_total (clientBidRow uid input)] },
        [Toast.ok "Bid submitted successfully!"])
    else (st, [Toast.err "Error submitting bid"])

/-- A call `acceptBid(bid.id, job.id)` or `rejectBid(bid.id, job.id)` as
issued from the UI: `MyJobsPage` lists only the signed-in user's own jobs
(`.eq('user_id', user.id)`) and renders the accept/reject buttons on bids
grouped under their job, so the caller owns the named job and the target
bid row exists on it. -/
def validOwnerCall (st : St) (authUid bidId jobId : String) : Prop :=
  (∃ j ∈ st.jobs, j.id = jobId ∧ j.user_id = authUid) ∧
  (∃ b ∈ st.bids, b.id = bidId ∧ b.job_id = jobId)

/-- One operation of the bid lifecycle as the program issues it, where
`acceptBid` may also stop after step (a) or after step (b), exposing the
intermediate states of the cascade. -/
inductive StepI : St → St → Prop where
  | submit : ∀ st auth input, StepI st (submitBid st auth input).1
  | accept : ∀ st authUid bidId jobId, validOwnerCall st authUid bidId jobId →
      StepI st (acceptBidState st authUid bidId jobId)
  | acceptMidA : ∀ st authUid bidId jobId, validOwnerCall st authUid bidId jobId →
      StepI st (stepA st authUid bidId)
  | acceptMidAB : ∀ st authUid bidId jobId, validOwnerCall st authUid bidId jobId →
      StepI st (stepAB st authUid bidId jobId)
  | reject : ∀ st authUid bidId jobId, validOwnerCall st authUid bidId jobId →
      StepI st (rejectBidOp st authUid bidId).1
  | setJobStatus : ∀ st jobId s, StepI st (updateJobStatusOp st jobId s true).1

/-- Reachability by the lifecycle operations, the intermediate states of
`acceptBid` included. -/
def ReachableI : St → St → Prop := Relation.ReflTransGen StepI

/-- Key uniqueness the store enforces on `bids`: primary-key uniqueness of
`id` and `UNIQUE(job_id, professional_id)`. -/
def BidsKeysWF (bids : List Bid) : Prop :=
  (bids.map Bid.id).Nodup ∧
  (bids.map fun b => (b.job_id, b.professional_id)).Nodup

/-- No bid row reads accepted. -/
def NoAcceptedBid (bids : List Bid) : Prop :=
  ∀ b ∈ bids, b.status ≠ "accepted"

/-- No bid is owned by the poster of its job — the property the insert
policy (`user_is_not_job_poster`) establishes for every row it admits. -/
def NoSelfBid (jobs : List Job) (bids : List Bid) : Prop :=
  ∀ b ∈ bids, ∀ j ∈ jobs, j.id = b.job_id → b.user_id ≠ j.user_id

/-- The store invariant carried across the lifecycle operations. -/
def LifecycleInv (st : St) : Prop :=
  BidsKeysWF st.bids ∧ NoAcceptedBid st.bids ∧ NoSelfBid st.jobs st.bids

/-- A row of the `conversations` table (the identifying triple). -/
structure Conversation where
  id : String
  job_id : String
  job_poster_id : String
  professional_id : String
  deriving DecidableEq, Repr

/-- A row of the `messages` table; `read_at = none` means unread. -/
structure Message where
  id : String
  conversation_id : String
  sender_id : String
  recipient_id : String
  content : String
  read_at : Option Nat
  deriving DecidableEq, Repr

/-- The conversation-lookup filter of `fetchUnreadCount`:
`.eq('job_id', jobId).eq('job_poster_id', jobPosterId).eq('professional_id', professionalId)`. -/
def conversationMatches (jobId posterId profId : String) (c : Conversation) : Bool :=
  c.job_id == jobId && c.job_poster_id == posterId && c.professional_id == profId

/-- The `.maybeSingle()` conversation lookup of `fetchUnreadCount`. -/
def findConversation (convs : List Conversation) (jobId posterId profId : String) :
    Option Conversation :=
  convs.find? (conversationMatches jobId posterId profId)

/-- The message filter shared by the unread count
(`.eq('conversation_id', ...).eq('recipient_id', viewer).is('read_at', null)`)
and by `markMessagesAsRead`. -/
def isUnreadFor (convId viewer : String) (m : Message) : Bool :=
  m.conversation_id == convId && m.recipient_id == viewer && m.read_at == none

/-- The unread-message count query of `fetchUnreadCount`
(`count: 'exact'` over the filtered `messages` rows). -/
def countUnread (msgs : List Message) (convId viewer : String) : Nat :=
  (msgs.filter (isUnreadFor convId viewer)).length

/-- `fetchUnreadCount` in `useUnreadMessages`: look up the conversation for
the triple (`none` result is terminal with count 0, not an error); if found,
count the viewer's unread messages in it. `convOk`/`cntOk` are the network
oracles of the two requests; a failed request returns early without a
count. -/
def fetchUnreadCount (convOk cntOk : Bool) (convs : List Conversation)
    (msgs : List Message) (jobId posterId profId viewer : String) : Option Nat :=
  if convOk = false then none
  else
    match findConversation convs jobId posterId profId with
    | none => some 0
    | some c => if cntOk = false then none else some (countUnread msgs c.id viewer)

/-- The hook state update: `setUnreadCount` runs only when a count was
obtained; otherwise the displayed count keeps its previous value, which is
initially 0. -/
def displayedUnreadCount (prev : Nat) (res : Option Nat) : Nat :=
  res.getD prev

/-- Per-row effect of `markMessagesAsRead`:
`update({read_at: now}).eq('conversation_id', c).eq('recipient_id', viewer).is('read_at', null)`. -/
def markReadRow (convId viewer : String) (t : Nat) (m : Message) : Message :=
  if isUnreadFor convId viewer m then { m with read_at := some t } else m

/-- `markMessagesAsRead` in `useChat`. -/
def markMessagesAsRead (msgs : List Message) (convId viewer : String) (t : Nat) :
    List Message :=
  msgs.map (markReadRow convId viewer t)

/-- The `useJobs` browse query:
`.select('*').eq('status', 'open').order('created_at', {ascending: false})`. -/
def useJobsQuery (jobs : List Job) : List Job :=
  (jobs.filter fun j => j.status == "open").mergeSort
    fun a b => decide (b.created_at ≤ a.created_at)

/-- Concrete job row used by witnesses. -/
def cJob : Job := { id := "J", user_id := "owner", status := "open", created_at := 3 }

/-- Concrete non-open job row used by witnesses. -/
def cJob2 : Job := { id := "K", user_id := "owner2", status := "in-progress", created_at := 7 }

/-- Concrete pending bid by `u1` on job `J`. -/
def cB1 : Bid :=
  { id := "B1", job_id := "J", professional_id := "u1", user_id := "u1",
    amount := 100, hourly_rate := none, estimated_hours := none, status := "pending" }

/-- Concrete pending bid by `u2` on job `J`. -/
def cB2 : Bid :=
  { id := "B2", job_id := "J", professional_id := "u2", user_id := "u2",
    amount := 200, hourly_rate := none, estimated_hours := none, status := "pending" }

/-- Concrete store with one open job and two pending bids. -/
def cSt : St := { jobs := [cJob], bids := [cB1, cB2] }

/-- Concrete store with one open job and no bids. -/
def cInit : St := { jobs := [cJob], bids := [] }

/-- Concrete bid submission by `u1` on job `J`. -/
def cIn1 : BidInput :=
  { id := "B1", job_id := "J", amount := 100, hourly_rate := none, estimated_hours := none }

/-- Concrete bid submission by `u2` on job `J`. -/
def cIn2 : BidInput :=
  { id := "B2", job_id := "J", amount := 200, hourly_rate := none, estimated_hours := none }

/-- Concrete bid submission carrying an hourly rate and estimated hours. -/
def cIn3 : BidInput :=
  { id := "B3", job_id := "J", amount := 999, hourly_rate := some 4500,
    estimated_hours := some 10 }

/-- State after `u1` submits a bid on `J`. -/
def cSt1 : St := (submitBid cInit (some "u1") cIn1).1

/-- State after `u2` also submits a bid on `J`. -/
def cSt2 : St := (submitBid cSt1 (some "u2") cIn2).1

/-- State after the poster of `J` runs the accept-bid cascade for `B1` and
all three requests succeed. -/
def cSt3 : St := acceptBidState cSt2 "owner" "B1" "J"

/-- Concrete conversation row for the triple (`J`, `owner`, `u1`). -/
def cConv : Conversation :=
  { id := "C", job_id := "J", job_poster_id := "owner", professional_id := "u1" }

/-- Concrete unread message to `u1` in conversation `C`. -/
def cM1 : Message :=
  { id := "M1", conversation_id := "C", sender_id := "owner", recipient_id := "u1",
    content := "hello", read_at := none }

/-- Concrete already-read message to `owner` in conversation `C`. -/
def cM2 : Message :=
  { id := "M2", conversation_id := "C", sender_id := "u1", recipient_id := "owner",
    content := "hi", read_at := some 3 }

theorem setBidStatusRow_id (authUid bidId s : String) (b : Bid) :
    (setBidStatusRow authUid bidId s b).id = b.id := by
  unfold setBidStatusRow; split <;> rfl

theorem setBidStatusRow_job_id (authUid bidId s : String) (b : Bid) :
    (setBidStatusRow authUid bidId s b).job_id = b.job_id := by
  unfold setBidStatusRow; split <;> rfl

theorem setBidStatusRow_professional_id (authUid bidId s : String) (b : Bid) :
    (setBidStatusRow authUid bidId s b).professional_id = b.professional_id := by
  unfold setBidStatusRow; split <;> rfl

theorem setBidStatusRow_user_id (authUid bidId s : String) (b : Bid) :
    (setBidStatusRow authUid bidId s b).user_id = b.user_id := by
  unfold setBidStatusRow; split <;> rfl

theorem setBidStatusRow_rejected_cases (authUid bidId : String) (b : Bid) :
    (setBidStatusRow authUid bidId "rejected" b).status = "rejected" ∨
    (setBidStatusRow authUid bidId "rejected" b).status = b.status := by
  unfold setBidStatusRow
  split
  · exact Or.inl rfl
  · exact Or.inr rfl

theorem rejectSiblingRow_id (authUid jobId bidId : String) (b : Bid) :
    (rejectSiblingRow authUid jobId bidId b).id = b.id := by
  unfold rejectSiblingRow; split <;> rfl

theorem rejectSiblingRow_job_id (authUid jobId bidId : String) (b : Bid) :
    (rejectSiblingRow authUid jobId bidId b).job_id = b.job_id := by
  unfold rejectSiblingRow; split <;> rfl

theorem rejectSiblingRow_professional_id (authUid jobId bidId : String) (b : Bid) :
    (rejectSiblingRow authUid jobId bidId b).professional_id = b.professional_id := by
  unfold rejectSiblingRow; split <;> rfl

theorem rejectSiblingRow_user_id (authUid jobId bidId : String) (b : Bid) :
    (rejectSiblingRow authUid jobId bidId b).user_id = b.user_id := by
  unfold rejectSiblingRow; split <;> rfl

theorem rejectSiblingRow_status_cases (authUid jobId bidId : String) (b : Bid) :
    (rejectSiblingRow authUid jobId bidId b).status = "rejected" ∨
    (rejectSiblingRow authUid jobId bidId b).status = b.status := by
  unfold rejectSiblingRow
  split
  · exact Or.inl rfl
  · exact Or.inr rfl

theorem map_map_fix {α β : Type} (l : List α) (f : α → α) (g : α → β)
    (h : ∀ a, g (f a) = g a) : (l.map f).map g = l.map g := by
  rw [List.map_map]
  exact List.map_congr_left fun a _ => h a

theorem map_eq_self {α : Type} {l : List α} {f : α → α} (h : ∀ a ∈ l, f a = a) :
    l.map f = l := by
  induction l with
  | nil => rfl
  | cons a tl ih =>
    rw [List.map_cons, h a (List.mem_cons_self _ _),
      ih fun x hx => h x (List.mem_cons_of_mem _ hx)]

theorem acceptBidState_bids (st : St) (authUid bidId jobId : String) :
    (acceptBidState st authUid bidId jobId).bids =
      rejectOtherBids (updateBidStatus st.bids authUid bidId "accepted")
        authUid jobId bidId := rfl

theorem acceptBidState_jobs (st : St) (authUid bidId jobId : String) :
    (acceptBidState st authUid bidId jobId).jobs =
      updateJobStatusRows st.jobs jobId "in-progress" := rfl

theorem calculate_bid_total_status (b : Bid) :
    (calculate_bid_total b).status = b.status := by
  unfold calculate_bid_total
  cases h1 : b.hourly_rate <;> cases h2 : b.estimated_hours <;> simp

theorem calculate_bid_total_id (b : Bid) :
    (calculate_bid_total b).id = b.id := by
  unfold calculate_bid_total
  cases h1 : b.hourly_rate <;> cases h2 : b.estimated_hours <;> simp

theorem calculate_bid_total_job_id (b : Bid) :
    (calculate_bid_total b).job_id = b.job_id := by
  unfold calculate_bid_total
  cases h1 : b.hourly_rate <;> cases h2 : b.estimated_hours <;> simp

theorem calculate_bid_total_professional_id (b : Bid) :
    (calculate_bid_total b).professional_id = b.professional_id := by
  unfold calculate_bid_total
  cases h1 : b.hourly_rate <;> cases h2 : b.estimated_hours <;> simp

theorem calculate_bid_total_user_id (b : Bid) :
    (calculate_bid_total b).user_id = b.user_id := by
  unfold calculate_bid_total
  cases h1 : b.hourly_rate <;> cases h2 : b.estimated_hours <;> simp

/-- C3, code bug: the claim says a failure after step (a) leaves the
target bid accepted with no rollback and an error surfaced. Evaluated on
the program: when the poster of `J` accepts `B1` and the sibling-reject
request fails, the error is surfaced and nothing is rolled back, but the
store is entirely unchanged — step (a) matched zero rows under the bids
UPDATE policy, so the target bid is still pending, never accepted. -/
theorem acceptBid_failure_rls_state :
    (acceptBidOp cSt "owner" "B1" "J" true false true).1 = cSt ∧
    (acceptBidOp cSt "owner" "B1" "J" true false true).2 =
      [Toast.err "Failed to accept bid"] ∧
    cB1.status = "pending" := by
  refine ⟨by decide, by decide, rfl⟩

/-- C4: the stored amount of a submitted bid carrying an hourly rate and
estimated hours is exactly their product in integer minor units (the
`calculate_bid_total` trigger overwrites any client-sent amount), so two
submissions with equal rate and hours store identical amounts whatever
explicit amounts they carried. -/
theorem stored_amount_exact (uid1 uid2 : String) (input1 input2 : BidInput) (r hEst : Int)
    (hr : input1.hourly_rate = some r) (hh : input1.estimated_hours = some hEst) :
    (calculate_bid_total (clientBidRow uid1 input1)).amount = r * hEst ∧
    (input2.hourly_rate = input1.hourly_rate → input2.estimated_hours = input1.estimated_hours →
      (calculate_bid_total (clientBidRow uid2 input2)).amount =
        (calculate_bid_total (clientBidRow uid1 input1)).amount) := by
  constructor
  · simp [calculate_bid_total, clientBidRow, hr, hh]
  · intro h2r h2h
    simp [calculate_bid_total, clientBidRow, hr, hh, h2r, h2h]

/-- Witness for C4 at a concrete submission. -/
theorem stored_amount_exact_witness :
    (calculate_bid_total (clientBidRow "u3" cIn3)).amount = 4500 * 10 :=
  (stored_amount_exact "u3" "u3" cIn3 cIn3 4500 10 rfl rfl).1

/-- C8, code bug: the claim says reject-bid sets the target bid to
rejected, and a second call is a no-op that stays rejected with no error.
Evaluated on the program: the poster-issued update matches no rows under
the bids UPDATE policy (`USING auth.uid() = user_id`, and the bid belongs
to the bidder), so both calls leave the bid pending while showing the
success toast — the target never becomes rejected at all. -/
theorem rejectBid_rls_noop :
    (rejectBidOp cSt "owner" "B1").1 = cSt ∧
    (rejectBidOp cSt "owner" "B1").2 = [Toast.ok "Bid rejected"] ∧
    (rejectBidOp (rejectBidOp cSt "owner" "B1").1 "owner" "B1").1 = cSt ∧
    (rejectBidOp (rejectBidOp cSt "owner" "B1").1 "owner" "B1").2 =
      [Toast.ok "Bid rejected"] ∧
    cB1.status = "pending" := by
  refine ⟨by decide, by decide, by decide, by decide, rfl⟩

/-- C9: change-job-status writes the requested status onto the job row
regardless of its current status (any status in the enumeration is
reachable from any other), touches no other row, and performs no
transition validation. -/
theorem updateJobStatus_unrestricted (st : St) (jobId newStatus : String)
    (henum : newStatus ∈ ["open", "in-progress", "completed", "cancelled"]) :
    (∀ j ∈ st.jobs, j.id = jobId →
      { j with status := newStatus } ∈ (updateJobStatusOp st jobId newStatus true).1.jobs) ∧
    (∀ j ∈ st.jobs, j.id ≠ jobId → j ∈ (updateJobStatusOp st jobId newStatus true).1.jobs) ∧
    (updateJobStatusOp st jobId newStatus true).1.bids = st.bids ∧
    (updateJobStatusOp st jobId newStatus true).2 = [Toast.ok "Job status updated"] := by
  refine ⟨?_, ?_, rfl, rfl⟩
  · intro j hj h
    exact List.mem_map.2 ⟨j, hj, by simp [setJobStatusRow, h]⟩
  · intro j hj h
    exact List.mem_map.2 ⟨j, hj, by simp [setJobStatusRow, h]⟩

/-- Witness for C9: an in-progress job is moved back to open. -/
theorem updateJobStatus_unrestricted_witness :
    { cJob2 with status := "open" } ∈
      (updateJobStatusOp { jobs := [cJob2], bids := [] } "K" "open" true).1.jobs :=
  (updateJobStatus_unrestricted { jobs := [cJob2], bids := [] } "K" "open"
    (by simp)).1 cJob2 (by decide) rfl

/-- C6: the unread-count computation returns 0 when no conversation row
matches the (job, poster, professional) triple (a terminal result, not an
error); when the lookup finds the conversation it returns exactly the
number of messages in it addressed to the viewer with a null read
timestamp; and on lookup failure the displayed count keeps its default 0. -/
theorem fetchUnreadCount_spec (convs : List Conversation) (msgs : List Message)
    (jobId posterId profId viewer : String) (cntOk : Bool) :
    ((∀ c ∈ convs, conversationMatches jobId posterId profId c = false) →
      fetchUnreadCount true cntOk convs msgs jobId posterId profId viewer = some 0) ∧
    (∀ c, findConversation convs jobId posterId profId = some c →
      fetchUnreadCount true true convs msgs jobId posterId profId viewer =
        some (countUnread msgs c.id viewer)) ∧
    displayedUnreadCount 0 (fetchUnreadCount false cntOk convs msgs jobId posterId profId viewer)
      = 0 := by
  refine ⟨?_, ?_, rfl⟩
  · intro h
    have hn : findConversation convs jobId posterId profId = none := by
      unfold findConversation
      exact List.find?_eq_none.2 fun x hx => by simp [h x hx]
    simp [fetchUnreadCount, hn]
  · intro c hc
    simp [fetchUnreadCount, hc]

/-- Witness for C6 at a concrete store with no conversation. -/
theorem fetchUnreadCount_spec_witness :
    fetchUnreadCount true true [] [cM1] "J" "owner" "u1" "u1" = some 0 :=
  (fetchUnreadCount_spec [] [cM1] "J" "owner" "u1" "u1" true).1 (by simp)

/-- C7: after mark-messages-as-read for a conversation and viewer, the
recomputed unread count for that conversation and viewer is 0; messages
that already carried a read timestamp are not modified by the update and
were never counted as unread. -/
theorem markMessagesAsRead_spec (msgs : List Message) (convId viewer : String) (t : Nat) :
    countUnread (markMessagesAsRead msgs convId viewer t) convId viewer = 0 ∧
    (∀ m ∈ msgs, m.read_at ≠ none → m ∈ markMessagesAsRead msgs convId viewer t) ∧
    (∀ m ∈ msgs, m.read_at ≠ none → isUnreadFor convId viewer m = false) := by
  have hread : ∀ m : Message, m.read_at ≠ none → isUnreadFor convId viewer m = false := by
    intro m hm
    obtain ⟨v, hv⟩ := Option.ne_none_iff_exists'.1 hm
    simp [isUnreadFor, hv]
  refine ⟨?_, ?_, fun m _ hm => hread m hm⟩
  · unfold countUnread markMessagesAsRead
    rw [List.length_eq_zero, List.filter_eq_nil_iff]
    intro x hx
    obtain ⟨m, hm, rfl⟩ := List.mem_map.1 hx
    unfold markReadRow
    by_cases h : isUnreadFor convId viewer m = true
    · rw [if_pos h]
      simp [isUnreadFor]
    · rw [if_neg h]
      exact h
  · intro m hm hr
    refine List.mem_map.2 ⟨m, hm, ?_⟩
    unfold markReadRow
    rw [if_neg (by simp [hread m hr])]

/-- Witness for C7 at a concrete conversation. -/
theorem markMessagesAsRead_spec_witness :
    countUnread (markMessagesAsRead [cM1, cM2] "C" "u1" 9) "C" "u1" = 0 ∧
    cM2 ∈ markMessagesAsRead [cM1, cM2] "C" "u1" 9 :=
  ⟨(markMessagesAsRead_spec [cM1, cM2] "C" "u1" 9).1,
    (markMessagesAsRead_spec [cM1, cM2] "C" "u1" 9).2.1 cM2 (by decide) (by decide)⟩

theorem setJobStatusRow_id (jobId s : String) (j : Job) :
    (setJobStatusRow jobId s j).id = j.id := by
  unfold setJobStatusRow; split <;> rfl

theorem setJobStatusRow_user_id (jobId s : String) (j : Job) :
    (setJobStatusRow jobId s j).user_id = j.user_id := by
  unfold setJobStatusRow; split <;> rfl

/-- C1, code bug: the claim states the intended cascade outcome (spec §8;
the client itself shows the success toast and writes accepted/rejected
into its local state), but under the bids UPDATE policy
(`USING auth.uid() = user_id`) the poster-issued steps (a) and (b) match
zero rows. Evaluated on the program: the poster of `J` accepts `B1`, all
three requests succeed, and the result leaves `B1` and `B2` still pending
— no bid accepted, none rejected — with only the job flipped to
in-progress and both success toasts shown. -/
theorem acceptBid_cascade_rls_noop :
    (acceptBidOp cSt "owner" "B1" "J" true true true).1 =
      { jobs := [{ cJob with status := "in-progress" }], bids := [cB1, cB2] } ∧
    (acceptBidOp cSt "owner" "B1" "J" true true true).2 =
      [Toast.ok "Job status updated", Toast.ok "Bid accepted successfully!"] ∧
    cB1.status = "pending" ∧ cB2.status = "pending" := by
  refine ⟨by decide, by decide, rfl, rfl⟩

/-- C10: the browse query returns exactly the jobs whose status is open,
ordered by creation time descending, so a job whose status is set to any
other value leaves the browse list while remaining in the store. -/
theorem useJobsQuery_spec (jobs : List Job) :
    (∀ j, j ∈ useJobsQuery jobs ↔ (j ∈ jobs ∧ j.status = "open")) ∧
    (useJobsQuery jobs).Pairwise (fun a b => b.created_at ≤ a.created_at) ∧
    (∀ j ∈ jobs, j.status ≠ "open" → j ∉ useJobsQuery jobs) := by
  have hmem : ∀ j, j ∈ useJobsQuery jobs ↔ (j ∈ jobs ∧ j.status = "open") := by
    intro j
    unfold useJobsQuery
    rw [(List.mergeSort_perm _ _).mem_iff, List.mem_filter]
    simp
  refine ⟨hmem, ?_, fun j hj hs hmem2 => hs ((hmem j).1 hmem2).2⟩
  unfold useJobsQuery
  have hs := @List.sorted_mergeSort Job
    (fun a b : Job => decide (b.created_at ≤ a.created_at))
    (by intro a b c hab hbc; simp at hab hbc ⊢; omega)
    (by intro a b; simp; omega)
    (jobs.filter fun j => j.status == "open")
  exact hs.imp (by intro a b h; simpa using h)

/-- Witness for C10: an in-progress job is absent from the browse list. -/
theorem useJobsQuery_spec_witness :
    cJob2 ∉ useJobsQuery [cJob, cJob2] :=
  (useJobsQuery_spec [cJob, cJob2]).2.2 cJob2 (by decide) (by decide)

/-- C5: on a job with no bids, submit-bid by an authenticated non-owner
succeeds and stores a pending bid, while submit-bid by the job's owner is
rejected with no insertion; the helper predicate
`user_is_not_job_poster` by itself decides non-ownership, and the store
policy's verdict coincides with it (its first conjunct holds because the
client sets `user_id` to the caller). -/
theorem submit_bid_owner_rule (st : St) (J : Job) (uid : String) (input : BidInput)
    (hJ : J ∈ st.jobs) (hjid : input.job_id = J.id)
    (huniq : ∀ j ∈ st.jobs, j.id = J.id → j = J)
    (hnobids : ∀ b ∈ st.bids, b.job_id ≠ J.id)
    (hfresh : ∀ b ∈ st.bids, b.id ≠ input.id) :
    (uid ≠ J.user_id →
      submitBid st (some uid) input =
        ({ st with bids := st.bids ++ [calculate_bid_total (clientBidRow uid input)] },
          [Toast.ok "Bid submitted successfully!"]) ∧
      (calculate_bid_total (clientBidRow uid input)).status = "pending") ∧
    (uid = J.user_id →
      submitBid st (some uid) input = (st, [Toast.err "Error submitting bid"])) ∧
    (user_is_not_job_poster st.jobs uid J.id = true ↔ uid ≠ J.user_id) ∧
    bidInsertPolicy st.jobs uid (clientBidRow uid input) =
      user_is_not_job_poster st.jobs uid input.job_id := by
  have hiff : user_is_not_job_poster st.jobs uid J.id = true ↔ uid ≠ J.user_id := by
    unfold user_is_not_job_poster
    rw [Bool.not_eq_true', List.any_eq_false]
    constructor
    · intro h heq
      exact (h J hJ) (by simp [heq])
    · intro hne j hj
      simp only [Bool.and_eq_true, beq_iff_eq]
      rintro ⟨h1, h2⟩
      rw [huniq j hj h1] at h2
      exact hne h2.symm
  have hpol : bidInsertPolicy st.jobs uid (clientBidRow uid input) =
      user_is_not_job_poster st.jobs uid input.job_id := by
    unfold bidInsertPolicy clientBidRow
    simp
  refine ⟨?_, ?_, hiff, hpol⟩
  · intro hne
    have htrue : user_is_not_job_poster st.jobs uid input.job_id = true := by
      rw [hjid]; exact hiff.2 hne
    have hcon : bidConstraintsOk st.bids (clientBidRow uid input) = true := by
      unfold bidConstraintsOk
      simp only [Bool.and_eq_true, Bool.not_eq_true', List.any_eq_false]
      constructor
      · intro b hb
        simp only [clientBidRow, beq_iff_eq]
        exact fun h => hfresh b hb h
      · intro b hb
        simp only [clientBidRow, Bool.and_eq_true, beq_iff_eq, not_and]
        intro h1 _
        exact hnobids b hb (h1.trans hjid)
    have hg : (bidInsertPolicy st.jobs uid (clientBidRow uid input) &&
        bidConstraintsOk st.bids (clientBidRow uid input)) = true := by
      rw [hpol, htrue, hcon]
      rfl
    refine ⟨?_, by rw [calculate_bid_total_status]; rfl⟩
    simp only [submitBid]
    rw [if_pos hg]
  · intro heq
    have hfalse : user_is_not_job_poster st.jobs uid input.job_id = false := by
      rw [hjid, Bool.eq_false_iff]
      intro htrue
      exact (hiff.1 htrue) heq
    have hg : (bidInsertPolicy st.jobs uid (clientBidRow uid input) &&
        bidConstraintsOk st.bids (clientBidRow uid input)) = false := by
      rw [hpol, hfalse, Bool.false_and]
    simp only [submitBid]
    rw [if_neg (by simp [hg])]

/-- Witness for C5: the owner of `J` is rejected when bidding on it. -/
theorem submit_bid_owner_rule_witness :
    submitBid cInit (some "owner") cIn1 = (cInit, [Toast.err "Error submitting bid"]) :=
  (submit_bid_owner_rule cInit cJob "owner" cIn1 (by decide) rfl (by decide)
    (by decide) (by decide)).2.1 rfl

theorem filter_len_le_one {α : Type} {R : α → α → Prop} {p : α → Bool} {l : List α}
    (hp : l.Pairwise R) (hcon : ∀ a b, p a = true → p b = true → R a b → False) :
    (l.filter p).length ≤ 1 := by
  have hps : (l.filter p).Pairwise R := List.Pairwise.sublist (List.filter_sublist l) hp
  rcases hfl : l.filter p with _ | ⟨a, _ | ⟨b, rest⟩⟩
  · simp
  · simp
  · exfalso
    have hma : a ∈ l.filter p := by rw [hfl]; exact List.mem_cons_self _ _
    have hmb : b ∈ l.filter p := by
      rw [hfl]; exact List.mem_cons_of_mem _ (List.mem_cons_self _ _)
    have hpa := (List.mem_filter.1 hma).2
    have hpb := (List.mem_filter.1 hmb).2
    have hR : R a b := by
      rw [hfl] at hps
      exact List.rel_of_pairwise_cons hps (List.mem_cons_self _ _)
    exact hcon a b hpa hpb hR

theorem pairwise_ne_of_nodup_map {α β : Type} {f : α → β} {l : List α}
    (h : (l.map f).Nodup) : l.Pairwise fun a b => f a ≠ f b :=
  List.pairwise_map.1 h

theorem pair_filter_le_one {bids : List Bid}
    (h : (bids.map fun b => (b.job_id, b.professional_id)).Nodup) (jobId uid : String) :
    (bids.filter fun b => b.job_id == jobId && b.professional_id == uid).length ≤ 1 := by
  refine filter_len_le_one (pairwise_ne_of_nodup_map h) ?_
  intro a b hpa hpb hR
  simp only [Bool.and_eq_true, beq_iff_eq] at hpa hpb
  exact hR (by rw [hpa.1, hpa.2, hpb.1, hpb.2])

theorem keys_map_fix (bids : List Bid) (f : Bid → Bid)
    (hid : ∀ x, (f x).id = x.id) (hjp : ∀ x, (f x).job_id = x.job_id)
    (hpp : ∀ x, (f x).professional_id = x.professional_id)
    (h : BidsKeysWF bids) : BidsKeysWF (bids.map f) := by
  constructor
  · rw [map_map_fix bids f Bid.id hid]
    exact h.1
  · rw [map_map_fix bids f (fun x => (x.job_id, x.professional_id))
      (fun x => by
        show ((f x).job_id, (f x).professional_id) = (x.job_id, x.professional_id)
        rw [hjp x, hpp x])]
    exact h.2

theorem keys_submit (st : St) (auth : Option String) (input : BidInput)
    (h : BidsKeysWF st.bids) : BidsKeysWF (submitBid st auth input).1.bids := by
  cases auth with
  | none => exact h
  | some uid =>
    by_cases hg : (bidInsertPolicy st.jobs uid (clientBidRow uid input) &&
        bidConstraintsOk st.bids (clientBidRow uid input)) = true
    · have hred : (submitBid st (some uid) input).1.bids
          = st.bids ++ [calculate_bid_total (clientBidRow uid input)] := by
        simp only [submitBid]
        rw [if_pos hg]
      rw [hred]
      rw [Bool.and_eq_true] at hg
      have hcons := hg.2
      unfold bidConstraintsOk at hcons
      rw [Bool.and_eq_true, Bool.not_eq_true', Bool.not_eq_true', List.any_eq_false,
        List.any_eq_false] at hcons
      obtain ⟨hcid, hcpair⟩ := hcons
      have hrid := calculate_bid_total_id (clientBidRow uid input)
      have hrjp := calculate_bid_total_job_id (clientBidRow uid input)
      have hrpp := calculate_bid_total_professional_id (clientBidRow uid input)
      constructor
      · rw [List.map_append, List.nodup_append]
        refine ⟨h.1, by simp, ?_⟩
        intro x hx hy
        simp only [List.map_cons, List.map_nil, List.mem_singleton] at hy
        obtain ⟨b, hb, rfl⟩ := List.mem_map.1 hx
        exact (hcid b hb) (by rw [beq_iff_eq]; exact hy.trans hrid)
      · rw [List.map_append, List.nodup_append]
        refine ⟨h.2, by simp, ?_⟩
        intro x hx hy
        simp only [List.map_cons, List.map_nil, List.mem_singleton] at hy
        obtain ⟨b, hb, rfl⟩ := List.mem_map.1 hx
        apply hcpair b hb
        rw [Bool.and_eq_true, beq_iff_eq, beq_iff_eq]
        rw [Prod.mk.injEq] at hy
        exact ⟨hy.1.trans hrjp, hy.2.trans hrpp⟩
    · have hred : (submitBid st (some uid) input).1.bids = st.bids := by
        simp only [submitBid]
        rw [if_neg hg]
      rw [hred]
      exact h

theorem noAccepted_map {bids : List Bid} {f : Bid → Bid}
    (hf : ∀ x, (f x).status = "rejected" ∨ (f x).status = x.status)
    (h : NoAcceptedBid bids) : NoAcceptedBid (bids.map f) := by
  intro b hb
  obtain ⟨a, ha, rfl⟩ := List.mem_map.1 hb
  rcases hf a with h1 | h1
  · rw [h1]
    decide
  · rw [h1]
    exact h a ha

theorem noAccepted_submit (st : St) (auth : Option String) (input : BidInput)
    (h : NoAcceptedBid st.bids) : NoAcceptedBid (submitBid st auth input).1.bids := by
  cases auth with
  | none => exact h
  | some uid =>
    by_cases hg : (bidInsertPolicy st.jobs uid (clientBidRow uid input) &&
        bidConstraintsOk st.bids (clientBidRow uid input)) = true
    · have hred : (submitBid st (some uid) input).1.bids
          = st.bids ++ [calculate_bid_total (clientBidRow uid input)] := by
        simp only [submitBid]
        rw [if_pos hg]
      rw [hred]
      intro b hb
      rcases List.mem_append.1 hb with hb2 | hb2
      · exact h b hb2
      · simp only [List.mem_singleton] at hb2
        subst hb2
        rw [calculate_bid_total_status]
        intro heq
        simp [clientBidRow] at heq
    · have hred : (submitBid st (some uid) input).1.bids = st.bids := by
        simp only [submitBid]
        rw [if_neg hg]
      rw [hred]
      exact h

theorem noSelfBid_map_bids {jobs : List Job} {bids : List Bid} (f : Bid → Bid)
    (hbj : ∀ x, (f x).job_id = x.job_id) (hbu : ∀ x, (f x).user_id = x.user_id)
    (h : NoSelfBid jobs bids) : NoSelfBid jobs (bids.map f) := by
  intro b hb j hj hid
  obtain ⟨a, ha, rfl⟩ := List.mem_map.1 hb
  rw [hbu]
  apply h a ha j hj
  rw [hbj] at hid
  exact hid

theorem noSelfBid_map_jobs {jobs : List Job} {bids : List Bid} (g : Job → Job)
    (hji : ∀ x, (g x).id = x.id) (hju : ∀ x, (g x).user_id = x.user_id)
    (h : NoSelfBid jobs bids) : NoSelfBid (jobs.map g) bids := by
  intro b hb j hj hid
  obtain ⟨k, hk, rfl⟩ := List.mem_map.1 hj
  rw [hju]
  apply h b hb k hk
  rw [hji] at hid
  exact hid

theorem noSelfBid_submit (st : St) (auth : Option String) (input : BidInput)
    (h : NoSelfBid st.jobs st.bids) :
    NoSelfBid (submitBid st auth input).1.jobs (submitBid st auth input).1.bids := by
  cases auth with
  | none => exact h
  | some uid =>
    by_cases hg : (bidInsertPolicy st.jobs uid (clientBidRow uid input) &&
        bidConstraintsOk st.bids (clientBidRow uid input)) = true
    · have hredb : (submitBid st (some uid) input).1.bids
          = st.bids ++ [calculate_bid_total (clientBidRow uid input)] := by
        simp only [submitBid]
        rw [if_pos hg]
      have hredj : (submitBid st (some uid) input).1.jobs = st.jobs := by
        simp only [submitBid]
        rw [if_pos hg]
      rw [hredb, hredj]
      intro b hb j hj hid
      rcases List.mem_append.1 hb with hb2 | hb2
      · exact h b hb2 j hj hid
      · simp only [List.mem_singleton] at hb2
        subst hb2
        rw [Bool.and_eq_true] at hg
        have hpol := hg.1
        unfold bidInsertPolicy at hpol
        rw [Bool.and_eq_true] at hpol
        have hnotposter := hpol.2
        unfold user_is_not_job_poster at hnotposter
        rw [Bool.not_eq_true', List.any_eq_false] at hnotposter
        have hj2 := hnotposter j hj
        simp only [Bool.and_eq_true, beq_iff_eq, not_and] at hj2
        rw [calculate_bid_total_job_id] at hid
        have hid2 : j.id = input.job_id := hid
        rw [calculate_bid_total_user_id]
        intro heq
        exact (hj2 hid2) heq.symm
    · have hred : (submitBid st (some uid) input).1 = st := by
        simp only [submitBid]
        rw [if_neg hg]
      rw [hred]
      exact h

theorem stepA_noop (st : St) (authUid bidId jobId : String)
    (hids : (st.bids.map Bid.id).Nodup)
    (hself : NoSelfBid st.jobs st.bids)
    (hvalid : validOwnerCall st authUid bidId jobId) :
    updateBidStatus st.bids authUid bidId "accepted" = st.bids := by
  obtain ⟨⟨j, hj, hjid, hju⟩, ⟨tb, htbm, htbid, htbjob⟩⟩ := hvalid
  apply map_eq_self
  intro b hb
  unfold setBidStatusRow
  rw [if_neg]
  rintro ⟨hbid, hau⟩
  have hbt : b = tb := List.inj_on_of_nodup_map hids hb htbm (by rw [hbid, htbid])
  have hbjob : b.job_id = jobId := by rw [hbt]; exact htbjob
  exact (hself b hb j hj (by rw [hbjob, hjid])) (by rw [← hau, hju])

theorem stepI_preserves_inv {a b : St} (hstep : StepI a b) (h : LifecycleInv a) :
    LifecycleInv b := by
  obtain ⟨hkeys, hnoacc, hself⟩ := h
  cases hstep with
  | submit auth input =>
    exact ⟨keys_submit a auth input hkeys, noAccepted_submit a auth input hnoacc,
      noSelfBid_submit a auth input hself⟩
  | accept authUid bidId jobId hv =>
    have hA : updateBidStatus a.bids authUid bidId "accepted" = a.bids :=
      stepA_noop a authUid bidId jobId hkeys.1 hself hv
    have hbids : (acceptBidState a authUid bidId jobId).bids
        = rejectOtherBids a.bids authUid jobId bidId := by
      rw [acceptBidState_bids, hA]
    refine ⟨?_, ?_, ?_⟩
    · rw [hbids]
      exact keys_map_fix a.bids (rejectSiblingRow authUid jobId bidId)
        (fun x => rejectSiblingRow_id _ _ _ x) (fun x => rejectSiblingRow_job_id _ _ _ x)
        (fun x => rejectSiblingRow_professional_id _ _ _ x) hkeys
    · rw [hbids]
      exact noAccepted_map (fun x => rejectSiblingRow_status_cases _ _ _ x) hnoacc
    · rw [hbids, acceptBidState_jobs]
      exact noSelfBid_map_jobs (setJobStatusRow jobId "in-progress")
        (fun x => setJobStatusRow_id _ _ x) (fun x => setJobStatusRow_user_id _ _ x)
        (noSelfBid_map_bids (rejectSiblingRow authUid jobId bidId)
          (fun x => rejectSiblingRow_job_id _ _ _ x)
          (fun x => rejectSiblingRow_user_id _ _ _ x) hself)
  | acceptMidA authUid bidId jobId hv =>
    have hA : updateBidStatus a.bids authUid bidId "accepted" = a.bids :=
      stepA_noop a authUid bidId jobId hkeys.1 hself hv
    have hbids : (stepA a authUid bidId).bids = a.bids := hA
    refine ⟨?_, ?_, ?_⟩
    · rw [hbids]; exact hkeys
    · rw [hbids]; exact hnoacc
    · show NoSelfBid (stepA a authUid bidId).jobs (stepA a authUid bidId).bids
      rw [hbids]
      exact hself
  | acceptMidAB authUid bidId jobId hv =>
    have hA : updateBidStatus a.bids authUid bidId "accepted" = a.bids :=
      stepA_noop a authUid bidId jobId hkeys.1 hself hv
    have hbids : (stepAB a authUid bidId jobId).bids
        = rejectOtherBids a.bids authUid jobId bidId := by
      show rejectOtherBids (updateBidStatus a.bids authUid bidId "accepted") authUid jobId bidId
        = rejectOtherBids a.bids authUid jobId bidId
      rw [hA]
    refine ⟨?_, ?_, ?_⟩
    · rw [hbids]
      exact keys_map_fix a.bids (rejectSiblingRow authUid jobId bidId)
        (fun x => rejectSiblingRow_id _ _ _ x) (fun x => rejectSiblingRow_job_id _ _ _ x)
        (fun x => rejectSiblingRow_professional_id _ _ _ x) hkeys
    · rw [hbids]
      exact noAccepted_map (fun x => rejectSiblingRow_status_cases _ _ _ x) hnoacc
    · show NoSelfBid (stepAB a authUid bidId jobId).jobs (stepAB a authUid bidId jobId).bids
      rw [hbids]
      exact noSelfBid_map_bids (rejectSiblingRow authUid jobId bidId)
        (fun x => rejectSiblingRow_job_id _ _ _ x)
        (fun x => rejectSiblingRow_user_id _ _ _ x) hself
  | reject authUid bidId jobId hv =>
    refine ⟨?_, ?_, ?_⟩
    · exact keys_map_fix a.bids (setBidStatusRow authUid bidId "rejected")
        (fun x => setBidStatusRow_id _ _ _ x) (fun x => setBidStatusRow_job_id _ _ _ x)
        (fun x => setBidStatusRow_professional_id _ _ _ x) hkeys
    · exact noAccepted_map (fun x => setBidStatusRow_rejected_cases _ _ x) hnoacc
    · exact noSelfBid_map_bids (setBidStatusRow authUid bidId "rejected")
        (fun x => setBidStatusRow_job_id _ _ _ x)
        (fun x => setBidStatusRow_user_id _ _ _ x) hself
  | setJobStatus jobId s =>
    refine ⟨hkeys, hnoacc, ?_⟩
    exact noSelfBid_map_jobs (setJobStatusRow jobId s)
      (fun x => setJobStatusRow_id _ _ x) (fun x => setJobStatusRow_user_id _ _ x) hself

theorem inv_reachI {a b : St} (hreach : ReachableI a b) (h : LifecycleInv a) :
    LifecycleInv b := by
  have hr : Relation.ReflTransGen StepI a b := hreach
  clear hreach
  induction hr with
  | refl => exact h
  | tail _ hstep ih => exact stepI_preserves_inv hstep ih

/-- C2: in every state reachable by the operations submit-bid, accept-bid
(the intermediate states between its three steps included), reject-bid and
change-job-status from a well-formed store with no accepted bids, each job
has at most one bid with status accepted, and each (job, bidder) pair has
at most one bid. The pair bound is maintained by the insert policy and
constraints; the accepted bound holds because under the bids UPDATE policy
the poster-issued accept writes match no bid row, so no bid ever becomes
accepted through these operations — not even transiently between the
cascade steps. -/
theorem bid_uniqueness_invariants (init st : St)
    (hids : (init.bids.map Bid.id).Nodup)
    (hpairs : (init.bids.map fun b => (b.job_id, b.professional_id)).Nodup)
    (hnoacc : ∀ b ∈ init.bids, b.status ≠ "accepted")
    (hself : ∀ b ∈ init.bids, ∀ j ∈ init.jobs, j.id = b.job_id → b.user_id ≠ j.user_id)
    (hreach : ReachableI init st) :
    (∀ jobId, (st.bids.filter fun b => b.job_id == jobId && b.status == "accepted").length ≤ 1) ∧
    (∀ jobId uid,
      (st.bids.filter fun b => b.job_id == jobId && b.professional_id == uid).length ≤ 1) := by
  have hinv := inv_reachI hreach ⟨⟨hids, hpairs⟩, hnoacc, hself⟩
  constructor
  · intro jobId
    have hnil : (st.bids.filter fun b => b.job_id == jobId && b.status == "accepted") = [] := by
      rw [List.filter_eq_nil_iff]
      intro b hb
      simp only [Bool.and_eq_true, beq_iff_eq, not_and]
      intro _
      exact hinv.2.1 b hb
    rw [hnil]
    simp
  · intro jobId uid
    exact pair_filter_le_one hinv.1.2 jobId uid

/-- Witness for C2 along a concrete trace: two submissions followed by the
poster running the full accept cascade. -/
theorem bid_uniqueness_invariants_witness :
    (cSt3.bids.filter fun b => b.job_id == "J" && b.status == "accepted").length ≤ 1 :=
  (bid_uniqueness_invariants cInit cSt3 (by decide) (by decide) (by decide) (by decide)
    (by
      have h1 : StepI cInit cSt1 := StepI.submit cInit (some "u1") cIn1
      have h2 : StepI cSt1 cSt2 := StepI.submit cSt1 (some "u2") cIn2
      have h3 : StepI cSt2 cSt3 :=
        StepI.accept cSt2 "owner" "B1" "J" (by unfold validOwnerCall; decide)
      exact Relation.ReflTransGen.tail
        (Relation.ReflTransGen.tail (Relation.ReflTransGen.single h1) h2) h3)).1 "J"

end TaskTraders
